import Mathlib

/-!
Verification of the autott transcoding pipeline against its specification.

The development shallowly embeds the relevant Python modules:
  * `src/cache.py` — the idempotency ledger (`Cache`),
  * `src/transcode.py` — resample decisions, path validation, the
    all-or-nothing `execute`/`cancel` pair and `Transcode.__init__`,
  * `src/modes.py` — candidate eligibility and the batch loops,
  * `src/log_checker.py` — the EAC/XLD log-authenticity checker.

Machine integers are modelled by `Nat`/`Int` with explicit masks where the
source masks (`& 0xFFFFFFFF`); fallible code returns `Except`; filesystem
and user interaction appear as explicit inputs.
-/

deriving instance DecidableEq for Except

namespace Autott

/-! ## Resample decisions (src/transcode.py) -/

/-- The `Resample` enum of `transcode.py` (KEEP = 0, KHZ_44_1 = 44100,
KHZ_48 = 48000). -/
inductive Resample where
  | KEEP
  | KHZ_44_1
  | KHZ_48
  deriving DecidableEq, Repr

/-- The numeric value attached to each `Resample` member in the source. -/
def Resample.value : Resample → Nat
  | .KEEP => 0
  | .KHZ_44_1 => 44100
  | .KHZ_48 => 48000

/-- FLAC stream metadata as read by `mutagen` and consumed by
`_get_resample` and `_validate_track`. -/
structure FlacInfo where
  bits_per_sample : Nat
  sample_rate : Nat
  channels : Nat
  deriving DecidableEq, Repr

/-- Errors raised during `Transcode` construction: `TranscodeException`,
`ValueError` and the `IndexError` from indexing an empty list. -/
inductive InitError where
  | transcodeExc (msg : String)
  | valueErr (msg : String)
  | namingExc (msg : String)
  | indexErr
  deriving DecidableEq, Repr

/-- `_get_resample` of `transcode.py`: high bit depth or high sample rate
forces a resample target, chosen by divisibility of the rate by 44100 and
then 48000; anything else is unsupported (`ValueError`). -/
def _get_resample (m : FlacInfo) : Except InitError Resample :=
  if m.bits_per_sample > 16 ∨ m.sample_rate > 48000 then
    if m.sample_rate % 44100 = 0 then
      .ok .KHZ_44_1
    else if m.sample_rate % 48000 = 0 then
      .ok .KHZ_48
    else
      .error (.valueErr "File has unsupported sample rate")
  else
    .ok .KEEP

/-- `Transcode._get_global_resample`: reads `self.tracks[0]` (an
`IndexError` on an empty track list), returns `None` (here `none`) as soon
as some track's decision differs from the first one, and otherwise the
shared decision. -/
def _get_global_resample (tracks : List Resample) : Except InitError (Option Resample) :=
  match tracks with
  | [] => .error .indexErr
  | first :: _ =>
    if tracks.all (fun t => t = first) then .ok (some first) else .ok none

/-! ## The idempotency ledger (src/cache.py) -/

/-- The `CacheEntry` namedtuple of `cache.py`. The `error` field is `None`
exactly for `complete` entries; `created` is the torrent creation time
(modelled as an integer timestamp). -/
structure CacheEntry where
  group_id : Int
  error : Option String
  retry : Bool
  created : Option Int
  deriving DecidableEq, Repr

/-- The in-memory dictionary of `Cache`, keyed by torrent id. Assignment
prepends, and lookup takes the first hit, mirroring dict update/get. -/
def Cache := List (Int × CacheEntry)

/-- Dictionary assignment `self._cache[torrent_id] = entry`. -/
def Cache.set (c : Cache) (torrent_id : Int) (e : CacheEntry) : Cache :=
  (torrent_id, e) :: c

/-- Dictionary read `self._cache.get(torrent_id)`. -/
def Cache.get (c : Cache) (torrent_id : Int) : Option CacheEntry :=
  List.lookup torrent_id c

/-- `Cache.complete`: stores `CacheEntry(group_id, None, False, None)`. -/
def Cache.complete (c : Cache) (group_id torrent_id : Int) : Cache :=
  c.set torrent_id ⟨group_id, none, false, none⟩

/-- `Cache.bad`: stores `CacheEntry(group_id, error, False, None)`. -/
def Cache.bad (c : Cache) (group_id torrent_id : Int) (error : String) : Cache :=
  c.set torrent_id ⟨group_id, some error, false, none⟩

/-- `Cache.error`: stores `CacheEntry(group_id, error, retry_callback(), None)`;
the callback's answer is passed in as a boolean. -/
def Cache.errorOp (c : Cache) (group_id torrent_id : Int) (error : String)
    (retry_callback : Bool) : Cache :=
  c.set torrent_id ⟨group_id, some error, retry_callback, none⟩

/-- `Cache.retry`: stores `CacheEntry(group_id, error, True, created)`. -/
def Cache.retry (c : Cache) (group_id torrent_id : Int) (created : Option Int)
    (error : String) : Cache :=
  c.set torrent_id ⟨group_id, some error, true, created⟩

/-- Strict comparison of optional timestamps; only reached by the source
when both sides are non-`None`, `false` elsewhere for definiteness. -/
def ltOpt : Option Int → Option Int → Bool
  | some a, some b => a < b
  | _, _ => false

/-- `Cache._should_try`: an entry is due when it has an error, is marked
for retry, and its creation time is absent, the cutoff is absent, or the
creation time precedes the cutoff. -/
def Cache._should_try (e : CacheEntry) (cutoff : Option Int) : Bool :=
  e.error.isSome && e.retry &&
    (e.created.isNone || cutoff.isNone || ltOpt e.created cutoff)

/-- `Cache.should_try`: an id with no record is always due; otherwise the
entry decides. -/
def Cache.should_try (c : Cache) (torrent_id : Int) (cutoff : Option Int) : Bool :=
  match c.get torrent_id with
  | none => true
  | some e => Cache._should_try e cutoff

/-! ## Path validation (src/transcode.py, `_check_valid_path`) -/

/-- `PATH_MAX_LENGTH` of `transcode.py`. -/
def PATH_MAX_LENGTH : Nat := 180

/-- The character class `[a-z0-9]` of the `HTML_ENCODE` pattern. -/
def isEntChar (c : Char) : Bool :=
  ('a' ≤ c && c ≤ 'z') || ('0' ≤ c && c ≤ '9')

/-- Continuation of a `HTML_ENCODE` match after `&` and one entity
character: further `[a-z0-9]` characters until a `;`. -/
def entTail : List Char → Bool
  | [] => false
  | c :: rest => if c = ';' then true else isEntChar c && entTail rest

/-- A match of the pattern `&[a-z0-9]+;` starting at the head. -/
def entHere : List Char → Bool
  | a :: c :: rest => (a == '&') && isEntChar c && entTail rest
  | _ => false

/-- `re.search` of the `HTML_ENCODE` pattern: a match starting at some
position of the string. -/
def htmlEncodeSearch : List Char → Bool
  | [] => false
  | c :: rest => entHere (c :: rest) || htmlEncodeSearch rest

/-- A residual HTML-entity-escaped sequence inside a character list: an
ampersand, one or more characters from `[a-z0-9]`, then a semicolon. This
is the declarative reading of the `HTML_ENCODE` regular expression. -/
def HasHtmlEntity (cs : List Char) : Prop :=
  ∃ pre mid post, cs = pre ++ '&' :: (mid ++ ';' :: post) ∧
    mid ≠ [] ∧ ∀ c ∈ mid, isEntChar c = true

/-- `_check_valid_path` on the string form of
`file.relative_to(dir.parent)`: in strict mode an over-long path, and
otherwise a path matching `HTML_ENCODE`, raise a `NamingException`
carrying the explanatory message; the path itself is returned unchanged
otherwise (non-strict mode only logs warnings). -/
def _check_valid_path (path : String) (strict : Bool) : Except InitError String :=
  if path.length > PATH_MAX_LENGTH ∧ strict then
    .error (.namingExc ("Path '" ++ path ++ "' has " ++ toString path.length ++
      " characters and exceeds maximum (" ++ toString PATH_MAX_LENGTH ++ ")"))
  else if htmlEncodeSearch path.data ∧ strict then
    .error (.namingExc ("Path '" ++ path ++ "' has invalid characters"))
  else
    .ok path

/-! ## All-or-nothing execution (Transcode.execute / Transcode.cancel) -/

/-- Filesystem paths as component lists; the tree rooted at a directory
is every path having it as a component-wise prefix, itself included. -/
abbrev FsPath := List String

/-- One fallible step of the `try` block of `Transcode.execute`: the paths
it creates before either finishing or raising the recorded exception. A
conversion task of `_transcode_parallel` (which first creates the needed
output folders) and a `mkdir`+`os.link` pair for one additional file are
both steps of this shape. -/
structure Step where
  creates : List FsPath
  failure : Option String

/-- `shutil.rmtree(dir, ignore_errors=True)`: drops the tree rooted at
the directory. -/
def rmtree (fs : List FsPath) (dir : FsPath) : List FsPath :=
  fs.filter (fun p => !(dir.isPrefixOf p))

/-- `Transcode.cancel`: removes the tree of every planned output
directory. -/
def Transcode.cancel (fs : List FsPath) (outputs : List FsPath) : List FsPath :=
  outputs.foldl rmtree fs

/-- The body of `Transcode.execute`'s `try` block: every step adds its
creations, and the first failing step aborts the run with its
exception. -/
def runSteps : List FsPath → List Step → List FsPath × Option String
  | fs, [] => (fs, none)
  | fs, s :: rest =>
    match s.failure with
    | some e => (fs ++ s.creates, some e)
    | none => runSteps (fs ++ s.creates) rest

/-- `Transcode.execute`: on any failure inside the `try` block, `cancel`
runs before the exception is re-raised (the second component). -/
def Transcode.execute (fs : List FsPath) (outputs : List FsPath)
    (steps : List Step) : List FsPath × Option String :=
  match runSteps fs steps with
  | (fs1, none) => (fs1, none)
  | (fs1, some e) => (Transcode.cancel fs1 outputs, some e)

/-! ## Transcode construction (src/transcode.py, `Transcode.__init__`) -/

/-- Lowercases a string character by character (`str.lower` on the ASCII
names involved here). -/
def strLower (s : String) : String := ⟨s.data.map Char.toLower⟩

/-- `pathlib.PurePath.suffix`: the extension from the final dot of the
name; empty when there is no dot, when the name starts with its only dot,
or when the dot is final. -/
def pathSuffix (name : String) : String :=
  let cs := name.data
  let n := cs.length
  let revIdx := cs.reverse.findIdx (fun c => c = '.')
  if revIdx < n - 1 ∧ 0 < revIdx then ⟨cs.drop (n - 1 - revIdx)⟩ else ""

/-- `_get_extension`: the path suffix, lowercased when `ignore_case`. -/
def _get_extension (path : String) (ignore_case : Bool) : String :=
  if ignore_case then strLower (pathSuffix path) else pathSuffix path

/-- `_find_by_extension` over the recursive listing of a directory: keeps
every file whose extension is among the requested ones (all files when no
extension is requested). -/
def _find_by_extension (files : List String) (extensions : List String)
    (ignore_case : Bool) : List String :=
  files.filter (fun f =>
    extensions.isEmpty || extensions.contains (_get_extension f ignore_case))

/-- `_iter_tracks`: the files with the `.flac` extension, case
insensitively. -/
def _iter_tracks (files : List String) : List String :=
  _find_by_extension files [".flac"] true

/-- `Transcode.__init__`, with the filesystem and I/O dependent steps as
explicit inputs: `files` is the recursive listing of the source directory,
`getTrack` the outcome of `_get_track` on each FLAC file (its tag and
stream validation together with its resample decision), `checkLogs` the
outcome of `_check_logs`, and `addFiles` the outcome of the
`_get_additional_files` naming pass. The source order is kept:
existing-output check, source-directory check, log check, track
validation, global resample, additional files, then the check rejecting a
FLAC_16 output when no resampling is needed. The result carries the track
decisions and the global decision. -/
def Transcode.init (input_dir_exists : Bool) (outputs_exist : Bool)
    (flac16_requested : Bool) (files : List String)
    (getTrack : String → Except InitError Resample)
    (checkLogs : Except InitError Nat) (addFiles : Except InitError Unit) :
    Except InitError (List Resample × Option Resample) :=
  if outputs_exist then
    .error (.transcodeExc "Cannot transcode into existing folders")
  else if !input_dir_exists then
    .error (.valueErr "Source directory does not exist")
  else do
    let _ ← checkLogs
    let tracks ← (_iter_tracks files).mapM getTrack
    let g ← _get_global_resample tracks
    let _ ← addFiles
    if g = some Resample.KEEP ∧ flac16_requested then
      .error (.transcodeExc
        "Source files do not require resampling, transcoding into FLAC is invalid")
    else
      .ok (tracks, g)

/-! ## Byte and string primitives used by the log checker

Bytes are `Nat` values below 256; text is `List Char`. The codecs and the
Python string methods the log checker relies on are embedded directly. -/

/-- Collects the 16-bit code units of a UTF-16-LE byte string; an odd
byte count is a decode error. -/
def utf16Units : List Nat → Option (List Nat)
  | [] => some []
  | [_] => none
  | b0 :: b1 :: rest => (utf16Units rest).map (fun us => (b0 + 256 * b1) :: us)

/-- Combines UTF-16 code units into characters, pairing surrogates; a
lone surrogate is a decode error. -/
def utf16Chars : List Nat → Option (List Char)
  | [] => some []
  | u :: rest =>
    if 0xD800 ≤ u ∧ u ≤ 0xDBFF then
      match rest with
      | [] => none
      | v :: rest2 =>
        if 0xDC00 ≤ v ∧ v ≤ 0xDFFF then
          (utf16Chars rest2).map (fun cs =>
            Char.ofNat (0x10000 + (u - 0xD800) * 0x400 + (v - 0xDC00)) :: cs)
        else none
    else if 0xDC00 ≤ u ∧ u ≤ 0xDFFF then none
    else (utf16Chars rest).map (fun cs => Char.ofNat u :: cs)

/-- `bytes.decode('utf-16-le')`. -/
def utf16leDecode (data : List Nat) : Option (List Char) :=
  (utf16Units data).bind utf16Chars

/-- `str.encode('utf-16-le')` for one character. -/
def utf16leEncodeChar (c : Char) : List Nat :=
  let n := c.toNat
  if n < 0x10000 then [n % 256, n / 256]
  else
    let m := n - 0x10000
    let hi := 0xD800 + m / 0x400
    let lo := 0xDC00 + m % 0x400
    [hi % 256, hi / 256, lo % 256, lo / 256]

/-- `str.encode('utf-16-le')`. -/
def utf16leEncode (cs : List Char) : List Nat := cs.bind utf16leEncodeChar

/-- A UTF-8 continuation byte. -/
def isCont (b : Nat) : Bool := decide (0x80 ≤ b ∧ b ≤ 0xBF)

/-- `bytes.decode('utf-8')`, rejecting overlong forms, surrogates and
out-of-range code points as CPython does. -/
def utf8Decode : List Nat → Option (List Char)
  | [] => some []
  | b :: rest =>
    if b ≤ 0x7F then (utf8Decode rest).map (fun cs => Char.ofNat b :: cs)
    else if b < 0xC2 then none
    else if b ≤ 0xDF then
      match rest with
      | b1 :: rest1 =>
        if isCont b1 then
          (utf8Decode rest1).map (fun cs =>
            Char.ofNat ((b - 0xC0) * 0x40 + (b1 - 0x80)) :: cs)
        else none
      | _ => none
    else if b ≤ 0xEF then
      match rest with
      | b1 :: b2 :: rest2 =>
        let cp := (b - 0xE0) * 0x1000 + (b1 - 0x80) * 0x40 + (b2 - 0x80)
        if isCont b1 ∧ isCont b2 ∧ 0x800 ≤ cp ∧ ¬(0xD800 ≤ cp ∧ cp ≤ 0xDFFF) then
          (utf8Decode rest2).map (fun cs => Char.ofNat cp :: cs)
        else none
      | _ => none
    else if b ≤ 0xF4 then
      match rest with
      | b1 :: b2 :: b3 :: rest3 =>
        let cp := (b - 0xF0) * 0x40000 + (b1 - 0x80) * 0x1000 +
          (b2 - 0x80) * 0x40 + (b3 - 0x80)
        if isCont b1 ∧ isCont b2 ∧ isCont b3 ∧ 0x10000 ≤ cp ∧ cp ≤ 0x10FFFF then
          (utf8Decode rest3).map (fun cs => Char.ofNat cp :: cs)
        else none
      | _ => none
    else none

/-- `str.encode('utf-8')` for one character. -/
def utf8EncodeChar (c : Char) : List Nat :=
  let n := c.toNat
  if n ≤ 0x7F then [n]
  else if n ≤ 0x7FF then [0xC0 + n / 0x40, 0x80 + n % 0x40]
  else if n ≤ 0xFFFF then
    [0xE0 + n / 0x1000, 0x80 + (n / 0x40) % 0x40, 0x80 + n % 0x40]
  else
    [0xF0 + n / 0x40000, 0x80 + (n / 0x1000) % 0x40,
      0x80 + (n / 0x40) % 0x40, 0x80 + n % 0x40]

/-- `str.encode('utf-8')`. -/
def utf8Encode (cs : List Char) : List Nat := cs.bind utf8EncodeChar

/-- `str.startswith` on character lists (first argument the candidate
leading part). -/
def leadsWith : List Char → List Char → Bool
  | [], _ => true
  | _ :: _, [] => false
  | p :: ps, c :: cs => (p == c) && leadsWith ps cs

/-- The line-break characters of `str.splitlines`. -/
def isLineBreakChar (c : Char) : Bool :=
  decide (c = '\n' ∨ c = '\r' ∨ c.toNat = 0x0B ∨ c.toNat = 0x0C ∨
    c.toNat = 0x1C ∨ c.toNat = 0x1D ∨ c.toNat = 0x1E ∨ c.toNat = 0x85 ∨
    c.toNat = 0x2028 ∨ c.toNat = 0x2029)

/-- Worker for `splitlines`; `acc` holds the current line reversed. -/
def splitlinesAux : List Char → List Char → List (List Char)
  | [], acc => if acc.isEmpty then [] else [acc.reverse]
  | [c], acc =>
    if isLineBreakChar c then [acc.reverse]
    else [(c :: acc).reverse]
  | c1 :: c2 :: rest, acc =>
    if c1 = '\r' ∧ c2 = '\n' then acc.reverse :: splitlinesAux rest []
    else if isLineBreakChar c1 then acc.reverse :: splitlinesAux (c2 :: rest) []
    else splitlinesAux (c2 :: rest) (c1 :: acc)

/-- `str.splitlines`: `\r\n` counts as one break, a trailing break adds
no empty line. -/
def splitlines (cs : List Char) : List (List Char) := splitlinesAux cs []

/-- Worker for `findSub`: the index of the first occurrence of the
pattern, counting from `i`. -/
def findSubAux (pat : List Char) : List Char → Nat → Option Nat
  | [], i => if pat.isEmpty then some i else none
  | c :: rest, i =>
    if leadsWith pat (c :: rest) then some i
    else findSubAux pat rest (i + 1)

/-- The index of the first occurrence of a substring (`str.find` /
the `in` operator). -/
def findSub (cs pat : List Char) : Option Nat := findSubAux pat cs 0

/-- `str.split(pat, 1)`: the part before the first occurrence, and the
part after it when the pattern occurs at all. -/
def splitOnce (cs pat : List Char) : List Char × Option (List Char) :=
  match findSub cs pat with
  | none => (cs, none)
  | some i => (cs.take i, some (cs.drop (i + pat.length)))

/-- The ASCII whitespace stripped and split on by `str.strip()` and
`str.split()`. -/
def isPyWs (c : Char) : Bool :=
  decide (c = ' ' ∨ c = '\t' ∨ c = '\n' ∨ c = '\r' ∨
    c.toNat = 0x0B ∨ c.toNat = 0x0C)

/-- `str.strip()`. -/
def stripWs (cs : List Char) : List Char :=
  ((cs.dropWhile isPyWs).reverse.dropWhile isPyWs).reverse

/-- Worker for `splitWs`. -/
def splitWsAux : List Char → List Char → List (List Char)
  | [], acc => if acc.isEmpty then [] else [acc.reverse]
  | c :: rest, acc =>
    if isPyWs c then
      if acc.isEmpty then splitWsAux rest []
      else acc.reverse :: splitWsAux rest []
    else splitWsAux rest (c :: acc)

/-- `str.split()` with no argument: splits on whitespace runs and never
yields empty parts. -/
def splitWs (cs : List Char) : List (List Char) := splitWsAux cs []

/-- `str.split(sep)` with a one-character separator: keeps empty
parts. -/
def splitAllCharAux (sep : Char) : List Char → List Char → List (List Char)
  | [], acc => [acc.reverse]
  | c :: rest, acc =>
    if c = sep then acc.reverse :: splitAllCharAux sep rest []
    else splitAllCharAux sep rest (c :: acc)

/-- `str.split(sep)` for a one-character separator. -/
def splitAllChar (sep : Char) (cs : List Char) : List (List Char) :=
  splitAllCharAux sep cs []

/-- Fuel-driven worker for `replaceAll`; the fuel starts at the string
length and each step consumes at least one character, so it never runs
out for a non-empty pattern. -/
def replaceAllFuel (pat rep : List Char) : Nat → List Char → List Char
  | 0, cs => cs
  | _ + 1, [] => []
  | fuel + 1, c :: rest =>
    if pat.isEmpty then c :: rest
    else if leadsWith pat (c :: rest) then
      rep ++ replaceAllFuel pat rep fuel ((c :: rest).drop pat.length)
    else c :: replaceAllFuel pat rep fuel rest

/-- `str.replace(pat, rep)`: replaces every non-overlapping occurrence
left to right (the empty pattern is never used by the source and is a
no-op here). -/
def replaceAll (pat rep cs : List Char) : List Char :=
  replaceAllFuel pat rep cs.length cs

/-- `str.rstrip('=')`. -/
def rstripEq (cs : List Char) : List Char :=
  (cs.reverse.dropWhile (fun c => c == '=')).reverse

/-- `int()` on the digit strings the version parsers feed it; anything
non-numeric is a `ValueError` (`none`). -/
def parseNat (cs : List Char) : Option Nat :=
  if cs.isEmpty ∨ ¬ cs.all (fun c => c.isDigit) then none
  else some (cs.foldl (fun acc c => acc * 10 + (c.toNat - 48)) 0)

/-! ## 32-bit helpers and the XLD checksum chain (src/log_checker.py) -/

/-- The 32-bit mask the source applies as `& 0xFFFFFFFF`. -/
def MASK32 : Nat := 0xFFFFFFFF

/-- `rotate_left` of `log_checker.py` (operands below 2^32). -/
def rotate_left (n k : Nat) : Nat :=
  ((n <<< k) &&& MASK32) ||| (n >>> (32 - k))

/-- `rotate_right` of `log_checker.py`. -/
def rotate_right (n k : Nat) : Nat := rotate_left n (32 - k)

/-- `int.from_bytes(_, 'big')`. -/
def beWord (bs : List Nat) : Nat := bs.foldl (fun acc b => acc * 256 + b) 0

/-- `int.to_bytes(len, 'big')`. -/
def natToBytesBE (len n : Nat) : List Nat :=
  ((List.range len).reverse).map (fun i => (n >>> (8 * i)) &&& 0xFF)

/-- A lowercase hex digit (for `bytes.hex()`). -/
def hexDigit (n : Nat) : Char :=
  if n < 10 then Char.ofNat (48 + n) else Char.ofNat (87 + n)

/-- An uppercase hex digit (for the EAC `f'\x7bd:02x\x7d'.upper()`). -/
def hexDigitUpper (n : Nat) : Char :=
  if n < 10 then Char.ofNat (48 + n) else Char.ofNat (55 + n)

/-- `len` lowercase hex digits of `n`, most significant first. -/
def natToHex (len n : Nat) : List Char :=
  ((List.range len).reverse).map (fun i => hexDigit ((n >>> (4 * i)) &&& 0xF))

/-- `len` uppercase hex digits of `n`, most significant first. -/
def natToHexUpper (len n : Nat) : List Char :=
  ((List.range len).reverse).map (fun i => hexDigitUpper ((n >>> (4 * i)) &&& 0xF))

/-- Fuel-driven splitting of a byte string into `k`-byte chunks; the
fuel starts at the string length, which suffices for every positive
`k`. -/
def chunksFuel (k : Nat) : Nat → List Nat → List (List Nat)
  | 0, _ => []
  | _ + 1, [] => []
  | fuel + 1, b :: rest =>
    ((b :: rest).take k) :: chunksFuel k fuel ((b :: rest).drop k)

/-- Splits a byte string into 64-byte chunks (the SHA-256 block loop). -/
def chunk64 (l : List Nat) : List (List Nat) := chunksFuel 64 l.length l

/-- Splits a byte string into 8-byte chunks (the scramble block loop). -/
def chunk8 (l : List Nat) : List (List Nat) := chunksFuel 8 l.length l

/-- Splits a byte string into 32-byte chunks (the EAC CBC loop). -/
def chunk32 (l : List Nat) : List (List Nat) := chunksFuel 32 l.length l

/-- The standard SHA-256 round constants of `_xld_sha256`. -/
def ROUND_CONSTANTS : List Nat :=
  [0x428A2F98, 0x71374491, 0xB5C0FBCF, 0xE9B5DBA5, 0x3956C25B, 0x59F111F1,
   0x923F82A4, 0xAB1C5ED5, 0xD807AA98, 0x12835B01, 0x243185BE, 0x550C7DC3,
   0x72BE5D74, 0x80DEB1FE, 0x9BDC06A7, 0xC19BF174, 0xE49B69C1, 0xEFBE4786,
   0x0FC19DC6, 0x240CA1CC, 0x2DE92C6F, 0x4A7484AA, 0x5CB0A9DC, 0x76F988DA,
   0x983E5152, 0xA831C66D, 0xB00327C8, 0xBF597FC7, 0xC6E00BF3, 0xD5A79147,
   0x06CA6351, 0x14292967, 0x27B70A85, 0x2E1B2138, 0x4D2C6DFC, 0x53380D13,
   0x650A7354, 0x766A0ABB, 0x81C2C92E, 0x92722C85, 0xA2BFE8A1, 0xA81A664B,
   0xC24B8B70, 0xC76C51A3, 0xD192E819, 0xD6990624, 0xF40E3585, 0x106AA070,
   0x19A4C116, 0x1E376C08, 0x2748774C, 0x34B0BCB5, 0x391C0CB3, 0x4ED8AA4A,
   0x5B9CCA4F, 0x682E6FF3, 0x748F82EE, 0x78A5636F, 0x84C87814, 0x8CC70208,
   0x90BEFFFA, 0xA4506CEB, 0xBEF9A3F7, 0xC67178F2]

/-- One message-schedule extension step (`round_state[i] = ...`). -/
def scheduleStep (w : Array Nat) (i : Nat) : Array Nat :=
  let s0 := rotate_right w[i - 15]! 7 ^^^ rotate_right w[i - 15]! 18 ^^^
    (w[i - 15]! >>> 3)
  let s1 := rotate_right w[i - 2]! 17 ^^^ rotate_right w[i - 2]! 19 ^^^
    (w[i - 2]! >>> 10)
  w.set! i ((w[i - 16]! + s0 + w[i - 7]! + s1) &&& MASK32)

/-- The message schedule: the 16 chunk words replicated four times (the
source's `4 * [...]`), positions 16 to 63 then overwritten in order. -/
def schedule (ws : List Nat) : Array Nat :=
  (List.range 48).foldl (fun w j => scheduleStep w (16 + j))
    (ws ++ ws ++ ws ++ ws).toArray

/-- One SHA-256 compression round on the state `[a, b, c, d, e, f, g, h]`;
the bitwise complement `~e` of the source acts on the low 32 bits. -/
def compressStep (k wi : Nat) (s : List Nat) : List Nat :=
  match s with
  | [a, b, c, d, e, f, g, h] =>
    let s0 := rotate_right a 2 ^^^ rotate_right a 13 ^^^ rotate_right a 22
    let maj := (a &&& b) ^^^ (a &&& c) ^^^ (b &&& c)
    let t2 := s0 + maj
    let s1 := rotate_right e 6 ^^^ rotate_right e 11 ^^^ rotate_right e 25
    let ch := (e &&& f) ^^^ ((MASK32 ^^^ e) &&& g)
    let t1 := h + s1 + ch + k + wi
    [(t1 + t2) &&& MASK32, a, b, c, (d + t1) &&& MASK32, e, f, g]
  | s => s

/-- Processes one 64-byte chunk of `_xld_sha256`. -/
def processChunk (state : List Nat) (chunk : List Nat) : List Nat :=
  let ws := (List.range 16).map (fun i => beWord ((chunk.drop (4 * i)).take 4))
  let w := schedule ws
  let final := (List.range 64).foldl
    (fun s i => compressStep (ROUND_CONSTANTS.getD i 0) (w[i]!) s) state
  List.zipWith (fun x y => (x + y) &&& MASK32) state final

/-- The SHA-256 padding of `_xld_sha256`: a single 1 bit, zeroes found by
the source's linear search, and the 64-bit big-endian message length. -/
def sha256Pad (data : List Nat) : List Nat :=
  let L := 8 * data.length
  let K := ((List.range 512).find? (fun i => (L + 1 + i + 64) % 512 == 0)).getD 0
  data ++ [0x80] ++ List.replicate ((K - 7) / 8) 0 ++ natToBytesBE 8 L

/-- `_xld_sha256`: SHA-256 with a caller-chosen initial state, returning
the lowercase hex digest. -/
def _xld_sha256 (data : List Nat) (initial_state : List Nat) : List Char :=
  let final := (chunk64 (sha256Pad data)).foldl processChunk initial_state
  ((final.take 8).map (natToHex 8)).join

/-- The `MAGIC_CONSTANTS` of `_xld_scramble`. -/
def XLD_MAGIC : List Nat :=
  [0x99036946, 0xE99DB8E7, 0xE3AE2FA7, 0xA339740,
   0xF06EB6A9, 0x92FF9B65, 0x28F7873, 0x9070E316]

/-- The body of the inner `for i in range(2)` loop of `_xld_scramble`;
the source's signed intermediate values are reduced modulo 2^32 by adding
`MASK32` (≡ −1) or 2^32 before masking. -/
def xldScrambleInner (i : Nat) (XY : Nat × Nat) : Nat × Nat :=
  let X0 := XY.1
  let Y0 := XY.2
  let Y1 := Y0 ^^^ X0
  let a := (XLD_MAGIC.getD (4 * i + 0) 0 + Y1) &&& MASK32
  let b := (a + rotate_left a 1 + MASK32) &&& MASK32
  let X1 := X0 ^^^ (b ^^^ rotate_left b 4)
  let c := (XLD_MAGIC.getD (4 * i + 1) 0 + X1) &&& MASK32
  let d := (c + 1 + rotate_left c 2) &&& MASK32
  let e := (XLD_MAGIC.getD (4 * i + 2) 0 + (d ^^^ rotate_left d 8)) &&& MASK32
  let f := (rotate_left e 1 + 0x100000000 - e) &&& MASK32
  let Y2 := Y1 ^^^ ((X1 ||| f) ^^^ rotate_left f 16)
  let g := (XLD_MAGIC.getD (4 * i + 3) 0 + Y2) &&& MASK32
  let X2 := X1 ^^^ ((g + 1 + rotate_left g 2) &&& MASK32)
  (X2, Y2)

/-- One iteration of the `for _ in range(4)` loop: the inner body for
`i = 0` then `i = 1`. -/
def xldScrambleRound (XY : Nat × Nat) : Nat × Nat :=
  xldScrambleInner 1 (xldScrambleInner 0 XY)

/-- One 8-byte block of `_xld_scramble`: the two 32-bit words are XORed
into the running state, scrambled four rounds, and emitted. -/
def xldScrambleBlock (XY : Nat × Nat) (block : List Nat) : (Nat × Nat) × List Nat :=
  let X := XY.1 ^^^ beWord (block.take 4)
  let Y := XY.2 ^^^ beWord ((block.drop 4).take 4)
  let P := xldScrambleRound (xldScrambleRound (xldScrambleRound
    (xldScrambleRound (X, Y))))
  (P, natToBytesBE 4 P.1 ++ natToBytesBE 4 P.2)

/-- Runs the scramble over the 8-byte blocks, collecting the output
blocks; the initial state is the source's magic `X`, `Y`. -/
def xldScrambleCore (blocks : List (List Nat)) : List (List Nat) :=
  ((blocks.foldl (fun (acc : (Nat × Nat) × List (List Nat)) blk =>
    let r := xldScrambleBlock acc.1 blk
    (r.1, acc.2 ++ [r.2])) ((0x6479B873, 0x48853AFC), []))).2

/-- `_xld_scramble`: an unaligned tail is split off, the aligned part is
extended by an 8-byte zero block, and the last output block is XOR-folded
with the unaligned tail (implicitly truncating to its length). -/
def _xld_scramble (data : List Nat) : List Nat :=
  if data.length % 8 = 0 then
    (xldScrambleCore (chunk8 data)).join
  else
    let stop := 8 * (data.length / 8)
    let unaligned := data.drop stop
    let out := xldScrambleCore (chunk8 (data.take stop ++ List.replicate 8 0))
    (out.dropLast).join ++
      List.zipWith (fun a b => a ^^^ b) (out.getLastD []) unaligned

/-- The standard base64 alphabet (`base64.b64encode`). -/
def B64_STD : List Char :=
  "ABCDEFGHIJKLMNOPQRSTUVWXYZabcdefghijklmnopqrstuvwxyz0123456789+/".data

/-- The non-standard alphabet used for XLD signatures. -/
def XLD_B64_ALPHABET : List Char :=
  "0123456789ABCDEFGHIJKLMNOPQRSTUVWXYZabcdefghijklmnopqrstuvwxyz._".data

/-- Standard base64 encoding of a byte string, `=`-padded. -/
def b64EncodeGroups : List Nat → List Char
  | [] => []
  | [b0] => [B64_STD.getD (b0 / 4) 'A', B64_STD.getD ((b0 % 4) * 16) 'A', '=', '=']
  | [b0, b1] => [B64_STD.getD (b0 / 4) 'A', B64_STD.getD ((b0 % 4) * 16 + b1 / 16) 'A',
      B64_STD.getD ((b1 % 16) * 4) 'A', '=']
  | b0 :: b1 :: b2 :: rest =>
    B64_STD.getD (b0 / 4) 'A' :: B64_STD.getD ((b0 % 4) * 16 + b1 / 16) 'A' ::
    B64_STD.getD ((b1 % 16) * 4 + b2 / 64) 'A' :: B64_STD.getD (b2 % 64) 'A' ::
    b64EncodeGroups rest

/-- `_xld_nonstandard_base64_encode`: standard base64, then the
`maketrans` translation into the custom alphabet (padding `=` kept). -/
def _xld_nonstandard_base64_encode (data : List Nat) (alphabet : List Char) :
    List Char :=
  (b64EncodeGroups data).map (fun c =>
    match B64_STD.findIdx? (fun x => x == c) with
    | some i => alphabet.getD i c
    | none => c)

/-! ## The log checker (src/log_checker.py) -/

/-- The exceptions of `log_checker.py`, plus the `ValueError` of `int()`
and the `IndexError` of out-of-range list indexing, which also escape. -/
inductive LogError where
  | wrongFormat (msg : String)
  | logExc (msg : String)
  | valueErr (msg : String)
  | indexErr
  deriving DecidableEq, Repr

/-- `_XLD_SIGNATURE_START`. -/
def XLD_SIG_START : List Char := "\n-----BEGIN XLD SIGNATURE-----\n".data

/-- The end marker the signature block is cut at. -/
def XLD_SIG_END : List Char := "\n-----END XLD SIGNATURE-----\n".data

/-- The leading text of an XLD version line. -/
def XLD_VERSION_LEAD : List Char := "X Lossless Decoder version".data

/-- The non-standard SHA-256 initial state of `xld_verify`. -/
def XLD_INITIAL_STATE : List Nat :=
  [0x1D95E3A4, 0x06520EF5, 0x3A9CFB75, 0x6104BCAE,
   0x09CEDA82, 0xBA55E60B, 0xEAEC16C6, 0xEB19AF15]

/-- `_xld_extract_info`: decodes as UTF-8 (or `WrongFormatException`),
reads the version token from the first line (an `IndexError` escapes on
an empty text or a short version line), and cuts out the signature
block. -/
def _xld_extract_info (data : List Nat) :
    Except LogError (List Char × Option (List Char) × Option (List Char)) :=
  match utf8Decode data with
  | none => .error (.wrongFormat "Invalid XLD encoding")
  | some text =>
    match splitlines text with
    | [] => .error .indexErr
    | line0 :: _ =>
      let versionRes : Except LogError (Option (List Char)) :=
        if leadsWith XLD_VERSION_LEAD line0 then
          match (splitWs line0).get? 4 with
          | none => .error .indexErr
          | some v => .ok (some v)
        else .ok none
      match versionRes with
      | .error e => .error e
      | .ok version =>
        match findSub text XLD_SIG_START with
        | none => .ok (text, version, none)
        | some i =>
          let sigparts := text.drop (i + XLD_SIG_START.length)
          .ok (text.take i, version, some (stripWs (splitOnce sigparts XLD_SIG_END).1))

/-- `xld_verify`: requires a version, hashes the unsigned text with the
non-standard initial state, scrambles the hex digest plus the fixed
version string, and encodes it with the custom alphabet, stripping the
padding. -/
def xld_verify (data : List Nat) :
    Except LogError (List Char × List Char × Option (List Char) × List Char) :=
  match _xld_extract_info data with
  | .error e => .error e
  | .ok (text, version, old_signature) =>
    match version with
    | none => .error (.wrongFormat "No XLD version present")
    | some ver =>
      let checksum := _xld_sha256 (utf8Encode text) XLD_INITIAL_STATE
      let scrambled := _xld_scramble (checksum.map Char.toNat ++
        (utf8Encode "\nVersion=0001".data))
      let signature := rstripEq
        (_xld_nonstandard_base64_encode scrambled XLD_B64_ALPHABET)
      .ok (text, ver, old_signature, signature)

/-- `_EAC_SIGNATURE_LINE`. -/
def EAC_SIG_LINE : List Char := "\r\n\r\n==== Log checksum".data

/-- An EAC version triple; `beta = none` stands for the source's
`float(+inf)` marker of a non-beta release. -/
structure EacVersion where
  major : Nat
  minor : Nat
  beta : Option Nat
  deriving DecidableEq, Repr

/-- Comparison of the beta components (`none` is `+inf`). -/
def betaLt : Option Nat → Option Nat → Bool
  | some a, some b => decide (a < b)
  | some _, none => true
  | none, _ => false

/-- Lexicographic comparison of EAC version triples, as Python compares
the source's tuples. -/
def eacVersionLt (v w : EacVersion) : Bool :=
  decide (v.major < w.major) ||
    ((v.major == w.major) && (decide (v.minor < w.minor) ||
      ((v.minor == w.minor) && betaLt v.beta w.beta)))

/-- `_EAC_MIN_VERSION` (`(1, 0, 1)`, i.e. V1.0 beta 1). -/
def EAC_MIN_VERSION : EacVersion := ⟨1, 0, some 1⟩

/-- `_XLD_MIN_VERSION`. -/
def XLD_MIN_VERSION : List Char := "20121027".data

/-- Python string `<` on the XLD version tokens: lexicographic by code
point. -/
def strLtChars : List Char → List Char → Bool
  | [], [] => false
  | [], _ :: _ => true
  | _ :: _, [] => false
  | a :: as, b :: bs => if a = b then strLtChars as bs else decide (a < b)

/-- Parses the version of one `Exact Audio Copy ...` line
(`_eac_extract_info` lines 218-228); a malformed number is the
`ValueError` of `int()` or of tuple unpacking. -/
def parseEacVersionLine (line : List Char) : Except LogError EacVersion :=
  let version_text := (splitOnce (replaceAll "Exact Audio Copy ".data [] line)
    " from".data).1
  let vt1 := version_text.drop 1
  let parts := splitOnce vt1 " beta ".data
  match splitAllChar '.' parts.1 with
  | [ma, mi] =>
    match parseNat ma, parseNat mi with
    | some major, some minor =>
      match parts.2 with
      | none => .ok ⟨major, minor, none⟩
      | some bs =>
        match parseNat bs with
        | some b => .ok ⟨major, minor, some b⟩
        | none => .error (.valueErr "invalid beta number")
    | _, _ => .error (.valueErr "invalid version number")
  | _ => .error (.valueErr "version unpack failed")

/-- Whether `re.match('[a-zA-Z]', line)` succeeds: the line starts with
an ASCII letter. -/
def startsWithLetter : List Char → Bool
  | [] => false
  | c :: _ => c.isAlpha

/-- The version-search loop of `_eac_extract_info`: the first
`Exact Audio Copy` line is parsed; a line starting with a letter before
that ends the search with no version. -/
def eacVersionLoop : List (List Char) → Except LogError (Option EacVersion)
  | [] => .ok none
  | line :: rest =>
    if leadsWith "Exact Audio Copy".data line then
      (parseEacVersionLine line).map some
    else if startsWithLetter line then .ok none
    else eacVersionLoop rest

/-- `_eac_extract_info`: the version from the line scan, and the
signature token after the checksum marker (`split()[0]` raising an
`IndexError` when nothing follows it). -/
def _eac_extract_info (text : List Char) :
    Except LogError (List Char × Option EacVersion × Option (List Char)) :=
  match eacVersionLoop (splitlines text) with
  | .error e => .error e
  | .ok version =>
    match findSub text EAC_SIG_LINE with
    | none => .ok (text, version, none)
    | some i =>
      match splitWs (text.drop (i + EAC_SIG_LINE.length)) with
      | [] => .error .indexErr
      | s :: _ => .ok (text.take i, version, some (stripWs s))

/-- `_eac_checksum`, parameterised by the Rijndael-256 block encryption
of the external `pprp` library (a 32-byte-block permutation): newlines
and BOMs dropped, the text UTF-16-LE encoded, zero-padded and chained
through the cipher in CBC mode from an all-zero IV, the final block
rendered as uppercase hex. -/
def _eac_checksum (cipher : List Nat → List Nat) (text : List Char) : List Char :=
  let cleaned := replaceAll [Char.ofNat 0xFFFE] []
    (replaceAll [Char.ofNat 0xFEFF] []
      (replaceAll "\n".data [] (replaceAll "\r".data [] text)))
  let plaintext := utf16leEncode cleaned
  let signature := (chunk32 plaintext).foldl (fun sig blk =>
    let padded := blk ++ List.replicate (32 - blk.length) 0
    cipher (List.zipWith (fun a b => a ^^^ b) sig padded))
    (List.replicate 32 0)
  (signature.map (natToHexUpper 2)).join

/-- `eac_verify`: decodes as UTF-16-LE (or `WrongFormatException`),
strips a BOM, truncates at the first NUL, rejects over-long lines,
requires a version, and returns the expected checksum of the unsigned
text. -/
def eac_verify (cipher : List Nat → List Nat) (data : List Nat) :
    Except LogError (List Char × EacVersion × Option (List Char) × List Char) :=
  match utf16leDecode data with
  | none => .error (.wrongFormat "Invalid EAC encoding")
  | some text0 =>
    let text1 := if leadsWith [Char.ofNat 0xFEFF] text0 then text0.drop 1 else text0
    let text2 := match findSub text1 [Char.ofNat 0] with
      | some i => text1.take i
      | none => text1
    if (splitAllChar '\n' text2).any (fun l => l.length + 1 > 8192) then
      .error (.wrongFormat "EAC cannot handle lines longer than 2^13 chars")
    else
      match _eac_extract_info text2 with
      | .error e => .error e
      | .ok (unsigned_text, version, old_signature) =>
        match version with
        | none => .error (.wrongFormat "No EAC version present")
        | some v =>
          .ok (unsigned_text, v, old_signature, _eac_checksum cipher unsigned_text)

/-- `try_verify`, generic over the version order: an error of the
underlying verifier propagates, a too-low version or a checksum mismatch
raises `LogException`, a missing signature is `False`, and a matching
one `True`. -/
def try_verify {V : Type} (vlt : V → V → Bool) (min_ver : V) :
    Except LogError (List Char × V × Option (List Char) × List Char) →
    Except LogError Bool
  | .error e => .error e
  | .ok (_, version, none, _) =>
    if vlt version min_ver then
      .error (.logExc "Invalid minimum version")
    else .ok false
  | .ok (_, version, some s, expected) =>
    if vlt version min_ver then
      .error (.logExc "Invalid minimum version")
    else if s ≠ expected then .error (.logExc "Invalid log checksum")
    else .ok true

/-- `is_extract_log`: the file read as text (UTF-8; a decode failure is
an exception the caller swallows), `True` unless it mentions
AUDIOCHECKER. -/
def is_extract_log (data : List Nat) : Except LogError Bool :=
  match utf8Decode data with
  | none => .error (.valueErr "invalid encoding")
  | some text => .ok (!(findSub text "AUDIOCHECKER".data).isSome)

/-- `check_log`: a non-extraction log is `False` (exceptions of that
check swallowed); then the EAC verification, falling back to XLD exactly
when the EAC attempt raised `WrongFormatException` — every other
exception, the XLD ones included, escapes to the caller. -/
def check_log (cipher : List Nat → List Nat) (data : List Nat) :
    Except LogError Bool :=
  match is_extract_log data with
  | .ok false => .ok false
  | _ =>
    match try_verify eacVersionLt EAC_MIN_VERSION (eac_verify cipher data) with
    | .error (.wrongFormat _) =>
      try_verify strLtChars XLD_MIN_VERSION (xld_verify data)
    | r => r

/-- A degenerate cipher for concrete runs of `check_log` on inputs whose
outcome does not depend on the cipher (it never reaches it, or reaches it
with an all-zero expected checksum). -/
def zeroCipher : List Nat → List Nat := fun _ => List.replicate 32 0

/-- A five-byte file that decodes in neither log format: odd length, so
not UTF-16, and no XLD version line. -/
def helloBytes : List Nat := (utf8Encode "hello".data)

/-- A well-formed EAC log whose checksum under `zeroCipher` (all-zero
blocks, i.e. 64 zero hex digits) matches its embedded signature. -/
def eacWitnessText : List Char :=
  ("Exact Audio Copy V1.3\r\n\r\n==== Log checksum " ++
    "0000000000000000000000000000000000000000000000000000000000000000\r\n").data

/-- The UTF-16-LE bytes of the witness log. -/
def eacWitnessData : List Nat := utf16leEncode eacWitnessText

/-! ## Candidate eligibility (src/modes.py, `_build_transcode_group`) -/

/-- The rejection reasons of the eligibility filter, in the order their
conditions appear in `_build_transcode_group` (modes.py lines 81-103). -/
inductive BadReason where
  | unknownYear
  | lossyMaster
  | notLossless
  | reportedOrTrumpable
  | disallowedMedia
  | badLog
  deriving DecidableEq, Repr

/-- What the filter does with a candidate: a permanent rejection
(`cache.bad`), a retryable postponement (`cache.retry`, for too-recent
torrents), or falling through to transcode preparation. -/
inductive Verdict where
  | bad (r : BadReason)
  | retryLater
  | proceed
  deriving DecidableEq, Repr

/-- The fields of the tracker's torrent object read by the filter; the
format-lossless flag stands for `Format.from_encoding(...).lossless` and
`time` is the torrent creation time as an integer timestamp. -/
structure TorrentInfo where
  remasterYear : Option Int
  lossyMasterApproved : Bool
  lossyWebApproved : Bool
  lossless : Bool
  reported : Bool
  trumpable : Bool
  media : String
  hasLog : Bool
  logScore : Int
  time : Int

/-- The eligibility conditions of `_build_transcode_group` in source
order, first match deciding: unknown-year, lossy-master-approved,
not-lossless, reported-or-trumpable, disallowed-media, bad-log-score,
too-recent. -/
def eligibility (allowed_media : List String) (created_cutoff : Option Int)
    (t : TorrentInfo) : Verdict :=
  if t.remasterYear ≠ none ∧ t.remasterYear = some 0 then .bad .unknownYear
  else if t.lossyMasterApproved ∨ t.lossyWebApproved then .bad .lossyMaster
  else if ¬ t.lossless then .bad .notLossless
  else if t.reported ∨ t.trumpable then .bad .reportedOrTrumpable
  else if ¬ allowed_media.contains (strLower t.media) then .bad .disallowedMedia
  else if t.hasLog ∧ t.logScore < 100 then .bad .badLog
  else
    match created_cutoff with
    | some cutoff => if cutoff ≤ t.time then .retryLater else .proceed
    | none => .proceed

/-! ## Batch loops (src/modes.py, `transcode_online`) -/

/-- The exception classes the batch loops distinguish:
`KeyboardInterrupt`, `TrackerException`, and everything else. -/
inductive ExcClass where
  | interrupt
  | trackerExc
  | otherExc
  deriving DecidableEq, Repr

/-- The candidate-preparation loop (modes.py lines 239-264), over the
outcome of each iteration body: a raised exception, or the produced
transcode group (abstracted to a tag; `none` when the body returned
early, e.g. a cache-skipped candidate). The handlers re-raise
`KeyboardInterrupt` and `TrackerException` and log-and-continue on any
other exception. The optional batch-size break only cuts the list of
candidates short and is left outside the model. -/
def prepLoop : List (Except ExcClass (Option Nat)) → Except ExcClass (List Nat)
  | [] => .ok []
  | o :: rest =>
    match o with
    | .error .interrupt => .error .interrupt
    | .error .trackerExc => .error .trackerExc
    | .error .otherExc => prepLoop rest
    | .ok none => prepLoop rest
    | .ok (some g) =>
      match prepLoop rest with
      | .error e => .error e
      | .ok gs => .ok (g :: gs)

/-- One item of the execution/publication loop: its ids, the exception
(if any) raised by `transcode.execute()`, the exception (if any) raised
by the torrent-generation/upload block, and the user's answer to the
retry prompt of `_error_check_retry`. -/
structure ExecItem where
  group_id : Int
  torrent_id : Int
  execOutcome : Option ExcClass
  uploadOutcome : Option ExcClass
  retryAnswer : Bool
  deriving DecidableEq, Repr

/-- One iteration of the execution/publication loop (modes.py lines
294-320): a bare `except:` around `transcode.execute()` catches every
exception — `KeyboardInterrupt` included — records a ledger `error` entry
whose retry flag is the prompt's answer, and continues; likewise around
the upload block, which on success records `complete`. The body never
re-raises. -/
def execStep (c : Cache) (it : ExecItem) : Cache :=
  match it.execOutcome with
  | some _ =>
    Cache.errorOp c it.group_id it.torrent_id "Transcode failed" it.retryAnswer
  | none =>
    match it.uploadOutcome with
    | some _ =>
      Cache.errorOp c it.group_id it.torrent_id
        "Torrent generation or upload failed" it.retryAnswer
    | none => Cache.complete c it.group_id it.torrent_id

/-- The execution/publication loop itself; its return type records that
no exception escapes it. -/
def execLoop (c : Cache) (items : List ExecItem) : Cache :=
  items.foldl execStep c

theorem Cache.get_set (c : Cache) (id : Int) (e : CacheEntry) :
    (c.set id e).get id = some e := by
  simp [Cache.get, Cache.set, List.lookup]

/-- C1. Ledger due-ness: an id with no record is due for every cutoff;
after `complete` or `bad` the id is never due; after `retry` with a
(non-null) reason and a non-null creation time `T`, the id is due exactly
when the cutoff is absent or `T` precedes it. -/
theorem cache_dueness (c : Cache) (gid tid : Int) (cutoff : Option Int) :
    (c.get tid = none → Cache.should_try c tid cutoff = true) ∧
    Cache.should_try (Cache.complete c gid tid) tid cutoff = false ∧
    (∀ err, Cache.should_try (Cache.bad c gid tid err) tid cutoff = false) ∧
    (∀ err T, Cache.should_try (Cache.retry c gid tid (some T) err) tid cutoff = true ↔
      cutoff = none ∨ ∃ u, cutoff = some u ∧ T < u) := by
  refine ⟨fun h => by simp [Cache.should_try, h], ?_, ?_, ?_⟩
  · simp [Cache.should_try, Cache.complete, Cache.get_set, Cache._should_try]
  · intro err
    simp [Cache.should_try, Cache.bad, Cache.get_set, Cache._should_try]
  · intro err T
    simp only [Cache.should_try, Cache.retry, Cache.get_set, Cache._should_try]
    cases cutoff with
    | none => simp [ltOpt]
    | some u => simp [ltOpt]

/-- C1 witness: instantiation at the empty ledger, id 7, cutoff 10,
creation time 3. -/
theorem cache_dueness_witness :
    (Cache.should_try ([] : Cache) 7 (some 10) = true) ∧
    Cache.should_try (Cache.complete [] 1 7) 7 (some 10) = false ∧
    Cache.should_try (Cache.bad [] 1 7 "err") 7 (some 10) = false ∧
    Cache.should_try (Cache.retry [] 1 7 (some 3) "err") 7 (some 10) = true := by
  have h := cache_dueness [] 1 7 (some 10)
  refine ⟨h.1 rfl, h.2.1, h.2.2.1 "err", ?_⟩
  exact ((h.2.2.2 "err" 3).mpr (Or.inr ⟨10, rfl, by norm_num⟩))

/-- C4. Global resample, concrete cases: decisions `[KEEP, KHZ_44_1]`
give MIXED (`none`), `[KHZ_44_1, KHZ_44_1]` give `KHZ_44_1`, and
`[KEEP, KEEP]` give `KEEP`. -/
theorem global_resample_cases :
    _get_global_resample [.KEEP, .KHZ_44_1] = .ok none ∧
    _get_global_resample [.KHZ_44_1, .KHZ_44_1] = .ok (some .KHZ_44_1) ∧
    _get_global_resample [.KEEP, .KEEP] = .ok (some .KEEP) := by
  decide

/-- C3 counterexample: on decisions `[KEEP, KHZ_44_1]` — KEEP tracks mixed
with non-KEEP tracks that all agree on `KHZ_44_1` — the code returns MIXED
(`none`), not the agreed non-KEEP value the claim predicts. -/
theorem global_resample_mixed_counterexample :
    _get_global_resample [.KEEP, .KHZ_44_1] = .ok none ∧
    _get_global_resample [.KEEP, .KHZ_44_1] ≠ .ok (some .KHZ_44_1) := by
  decide

/-- C3 amended. For every non-empty track list the global decision is a
single value `v` exactly when every track's decision equals `v` (so KEEP
only when every track is KEEP), and it is MIXED (`none`) exactly when some
track differs from the first; a KEEP/non-KEEP mix is therefore MIXED. -/
theorem global_resample_characterisation (tracks : List Resample)
    (first : Resample) (rest : List Resample) (h : tracks = first :: rest) :
    (∀ v, _get_global_resample tracks = .ok (some v) ↔ ∀ t ∈ tracks, t = v) ∧
    (_get_global_resample tracks = .ok none ↔ ∃ t ∈ tracks, t ≠ first) := by
  subst h
  constructor
  · intro v
    simp only [_get_global_resample]
    by_cases hall : ∀ t ∈ first :: rest, t = v
    · have hf : first = v := hall first (by simp)
      have : (first :: rest).all (fun t => t = first) = true := by
        simp only [List.all_eq_true, decide_eq_true_eq]
        intro t ht
        rw [hall t ht, hf]
      simp [this, hf, hall]
    · constructor
      · intro hres
        by_cases hb : (first :: rest).all (fun t => t = first) = true
        · simp only [hb, if_pos] at hres
          simp only [Except.ok.injEq, Option.some.injEq] at hres
          subst hres
          exact fun t ht => by
            have := List.all_eq_true.mp hb t ht
            simpa using this
        · simp [hb] at hres
      · intro hc
        exact absurd hc hall
  · simp only [_get_global_resample]
    by_cases hb : (first :: rest).all (fun t => t = first) = true
    · simp only [hb, if_pos]
      constructor
      · intro hres
        exact absurd hres (by simp)
      · rintro ⟨t, ht, hne⟩
        have := List.all_eq_true.mp hb t ht
        simp only [decide_eq_true_eq] at this
        exact absurd this hne
    · simp only [hb, if_neg, if_false]
      constructor
      · intro _
        simp only [List.all_eq_true, decide_eq_true_eq, not_forall] at hb
        obtain ⟨t, ht, hne⟩ := hb
        exact ⟨t, ht, hne⟩
      · intro _
        rfl

/-- C3 amended witness: instantiation at the list `[KHZ_48, KHZ_48]`. -/
theorem global_resample_characterisation_witness :
    ((∀ v, _get_global_resample [.KHZ_48, .KHZ_48] = .ok (some v) ↔
        ∀ t ∈ ([.KHZ_48, .KHZ_48] : List Resample), t = v) ∧
      (_get_global_resample [.KHZ_48, .KHZ_48] = .ok none ↔
        ∃ t ∈ ([.KHZ_48, .KHZ_48] : List Resample), t ≠ .KHZ_48)) :=
  global_resample_characterisation [.KHZ_48, .KHZ_48] .KHZ_48 [.KHZ_48] rfl

/-- C5. Per-track resample decision: bit depth at most 16 and rate at
most 48000 give KEEP; otherwise a rate divisible by 44100 gives the
44.1 kHz target, else a rate divisible by 48000 gives the 48 kHz target,
else the computation fails; a 24-bit 96000 Hz track gets the 48 kHz
target. -/
theorem per_track_resample (m : FlacInfo) :
    (m.bits_per_sample ≤ 16 ∧ m.sample_rate ≤ 48000 → _get_resample m = .ok .KEEP) ∧
    (m.bits_per_sample > 16 ∨ m.sample_rate > 48000 →
      (m.sample_rate % 44100 = 0 → _get_resample m = .ok .KHZ_44_1) ∧
      (m.sample_rate % 44100 ≠ 0 → m.sample_rate % 48000 = 0 →
        _get_resample m = .ok .KHZ_48) ∧
      (m.sample_rate % 44100 ≠ 0 → m.sample_rate % 48000 ≠ 0 →
        ∃ msg, _get_resample m = .error (.valueErr msg))) ∧
    (∀ ch, _get_resample ⟨24, 96000, ch⟩ = .ok .KHZ_48) := by
  refine ⟨?_, ?_, ?_⟩
  · intro ⟨h1, h2⟩
    simp [_get_resample, Nat.not_lt.mpr h1, Nat.not_lt.mpr h2]
  · intro h
    refine ⟨?_, ?_, ?_⟩
    · intro h44
      simp [_get_resample, h, h44]
    · intro h44 h48
      simp [_get_resample, h, h44, h48]
    · intro h44 h48
      refine ⟨"File has unsupported sample rate", ?_⟩
      simp [_get_resample, h, h44, h48]
  · intro ch
    norm_num [_get_resample]

/-- C5 witness: the 24-bit 96000 Hz stereo track. -/
theorem per_track_resample_witness :
    _get_resample ⟨24, 96000, 2⟩ = .ok .KHZ_48 := by
  have h := per_track_resample ⟨24, 96000, 2⟩
  exact h.2.2 2

theorem mem_cancel (outputs : List FsPath) (fs : List FsPath) (p : FsPath)
    (hp : p ∈ Transcode.cancel fs outputs) :
    p ∈ fs ∧ ∀ d ∈ outputs, List.isPrefixOf d p = false := by
  induction outputs generalizing fs with
  | nil =>
    refine ⟨by simpa [Transcode.cancel] using hp, by simp⟩
  | cons d ds ih =>
    have hp' : p ∈ Transcode.cancel (rmtree fs d) ds := hp
    obtain ⟨h1, h2⟩ := ih (rmtree fs d) hp'
    rw [rmtree, List.mem_filter] at h1
    refine ⟨h1.1, ?_⟩
    intro d' hd'
    rcases List.mem_cons.mp hd' with h | h
    · subst h
      simpa using h1.2
    · exact h2 d' h

/-- C2. All-or-nothing execution: whenever `Transcode.execute` surfaces a
failure, `cancel` has removed the tree of every planned output directory,
so no surviving path lies under (or is) any of them. -/
theorem execute_all_or_nothing (fs : List FsPath) (outputs : List FsPath)
    (steps : List Step) (e : String)
    (h : (Transcode.execute fs outputs steps).2 = some e) :
    ∀ p ∈ (Transcode.execute fs outputs steps).1,
      ∀ d ∈ outputs, List.isPrefixOf d p = false := by
  intro p hp d hd
  rcases hrun : runSteps fs steps with ⟨fs1, err⟩
  cases err with
  | none =>
    rw [Transcode.execute, hrun] at h
    simp at h
  | some e' =>
    rw [Transcode.execute, hrun] at hp
    exact (mem_cancel outputs fs1 p hp).2 d hd

/-- C2 witness: one conversion step fails after creating a file inside the
16-bit output directory; after the failure surfaces neither output tree
holds any path. -/
theorem execute_all_or_nothing_witness :
    (Transcode.execute [] [["O16"], ["O320"]]
        [⟨[["O16"], ["O16", "01.flac"]], some "boom"⟩]).2 = some "boom" ∧
    ∀ p ∈ (Transcode.execute [] [["O16"], ["O320"]]
        [⟨[["O16"], ["O16", "01.flac"]], some "boom"⟩]).1,
      ∀ d ∈ [["O16"], ["O320"]], List.isPrefixOf d p = false :=
  ⟨rfl, execute_all_or_nothing [] [["O16"], ["O320"]]
    [⟨[["O16"], ["O16", "01.flac"]], some "boom"⟩] "boom" rfl⟩

theorem entTail_sound (cs : List Char) (h : entTail cs = true) :
    ∃ mid post, cs = mid ++ ';' :: post ∧ ∀ c ∈ mid, isEntChar c = true := by
  induction cs with
  | nil => simp [entTail] at h
  | cons c rest ih =>
    rw [entTail] at h
    by_cases hc : c = ';'
    · exact ⟨[], rest, by simp [hc], by simp⟩
    · rw [if_neg hc, Bool.and_eq_true] at h
      obtain ⟨mid, post, heq, hall⟩ := ih h.2
      refine ⟨c :: mid, post, by simp [heq], ?_⟩
      intro c' hc'
      rcases List.mem_cons.mp hc' with h' | h'
      · subst h'; exact h.1
      · exact hall c' h'

theorem entTail_complete (mid post : List Char)
    (hall : ∀ c ∈ mid, isEntChar c = true) :
    entTail (mid ++ ';' :: post) = true := by
  induction mid with
  | nil => simp [entTail]
  | cons c mid' ih =>
    rw [List.cons_append, entTail]
    by_cases hc : c = ';'
    · simp [hc]
    · rw [if_neg hc, Bool.and_eq_true]
      exact ⟨hall c (by simp), ih fun c' h' => hall c' (by simp [h'])⟩

theorem entHere_sound (cs : List Char) (h : entHere cs = true) :
    ∃ mid post, cs = '&' :: (mid ++ ';' :: post) ∧ mid ≠ [] ∧
      ∀ c ∈ mid, isEntChar c = true := by
  cases cs with
  | nil => simp [entHere] at h
  | cons a rest0 =>
    cases rest0 with
    | nil => simp [entHere] at h
    | cons c rest =>
      rw [entHere, Bool.and_eq_true, Bool.and_eq_true] at h
      obtain ⟨⟨ha, hc⟩, ht⟩ := h
      obtain ⟨mid, post, heq, hall⟩ := entTail_sound rest ht
      refine ⟨c :: mid, post, ?_, by simp, ?_⟩
      · have ha' : a = '&' := beq_iff_eq.mp ha
        rw [ha', heq]
        simp
      · intro c' hc'
        rcases List.mem_cons.mp hc' with h' | h'
        · subst h'; exact hc
        · exact hall c' h'

theorem htmlEncodeSearch_iff (cs : List Char) :
    htmlEncodeSearch cs = true ↔ HasHtmlEntity cs := by
  constructor
  · intro h
    induction cs with
    | nil => simp [htmlEncodeSearch] at h
    | cons c rest ih =>
      rw [htmlEncodeSearch, Bool.or_eq_true] at h
      rcases h with h | h
      · obtain ⟨mid, post, heq, hne, hall⟩ := entHere_sound _ h
        exact ⟨[], mid, post, by simp [heq], hne, hall⟩
      · obtain ⟨pre, mid, post, heq, hne, hall⟩ := ih h
        exact ⟨c :: pre, mid, post, by simp [heq], hne, hall⟩
  · rintro ⟨pre, mid, post, heq, hne, hall⟩
    subst heq
    induction pre with
    | nil =>
      rw [List.nil_append, htmlEncodeSearch, Bool.or_eq_true]
      left
      cases mid with
      | nil => exact absurd rfl hne
      | cons c mid' =>
        rw [List.cons_append, entHere, Bool.and_eq_true, Bool.and_eq_true]
        exact ⟨⟨beq_self_eq_true '&', hall c (by simp)⟩,
          entTail_complete mid' post fun c' h' => hall c' (by simp [h'])⟩
    | cons c pre' ih =>
      rw [List.cons_append, htmlEncodeSearch, Bool.or_eq_true]
      exact Or.inr ih

/-- C8. Path validation: in strict mode a relative path longer than the
180-character maximum, or holding a residual HTML-entity-escaped
sequence, raises a `NamingException` carrying an explanatory message; any
other path — a path of length exactly 180 with no such sequence included —
is returned unchanged. -/
theorem check_valid_path_spec (path : String) :
    (path.length > PATH_MAX_LENGTH ∨ HasHtmlEntity path.data →
      ∃ msg, _check_valid_path path true = .error (.namingExc msg)) ∧
    (path.length ≤ PATH_MAX_LENGTH → ¬ HasHtmlEntity path.data →
      _check_valid_path path true = .ok path) ∧
    (path.length = PATH_MAX_LENGTH → ¬ HasHtmlEntity path.data →
      _check_valid_path path true = .ok path) := by
  have hiff := htmlEncodeSearch_iff path.data
  refine ⟨?_, ?_, ?_⟩
  · intro h
    rcases h with h | h
    · have hc1 : path.length > PATH_MAX_LENGTH ∧ true = true := ⟨h, rfl⟩
      refine ⟨"Path '" ++ path ++ "' has " ++ toString path.length ++
        " characters and exceeds maximum (" ++ toString PATH_MAX_LENGTH ++ ")", ?_⟩
      rw [_check_valid_path, if_pos hc1]
    · by_cases hlen : path.length > PATH_MAX_LENGTH
      · have hc1 : path.length > PATH_MAX_LENGTH ∧ true = true := ⟨hlen, rfl⟩
        refine ⟨"Path '" ++ path ++ "' has " ++ toString path.length ++
          " characters and exceeds maximum (" ++ toString PATH_MAX_LENGTH ++ ")", ?_⟩
        rw [_check_valid_path, if_pos hc1]
      · have hc1 : ¬(path.length > PATH_MAX_LENGTH ∧ true = true) :=
          fun hc => hlen hc.1
        have hc2 : htmlEncodeSearch path.data = true ∧ true = true :=
          ⟨hiff.mpr h, rfl⟩
        refine ⟨"Path '" ++ path ++ "' has invalid characters", ?_⟩
        rw [_check_valid_path, if_neg hc1, if_pos hc2]
  · intro hl hh
    rw [_check_valid_path, if_neg (fun hc => absurd hc.1 (Nat.not_lt.mpr hl)),
      if_neg (fun hc => hh (hiff.mp hc.1))]
  · intro hl hh
    rw [_check_valid_path, if_neg (fun hc => absurd hc.1 (by simp [hl])),
      if_neg (fun hc => hh (hiff.mp hc.1))]

/-- C8 witness: a 180-character path with no entity sequence passes
unchanged. -/
theorem check_valid_path_spec_witness :
    _check_valid_path (String.mk (List.replicate 180 'a')) true =
      .ok (String.mk (List.replicate 180 'a')) := by
  have h := (check_valid_path_spec (String.mk (List.replicate 180 'a'))).2.2
  have hlen : (String.mk (List.replicate 180 'a')).length = PATH_MAX_LENGTH := by
    show (List.replicate 180 'a').length = PATH_MAX_LENGTH
    rw [List.length_replicate]
    rfl
  have hsearch : htmlEncodeSearch (String.mk (List.replicate 180 'a')).data = false := by
    have : ∀ n, htmlEncodeSearch (List.replicate n 'a') = false := by
      intro n
      induction n with
      | zero => rfl
      | succ k ih =>
        rw [List.replicate_succ, htmlEncodeSearch, ih, Bool.or_false]
        cases k with
        | zero => rfl
        | succ m => rw [List.replicate_succ]; rfl
    exact this 180
  refine h hlen ?_
  intro hc
  have := (htmlEncodeSearch_iff (String.mk (List.replicate 180 'a')).data).mpr hc
  rw [hsearch] at this
  exact Bool.false_ne_true this

/-- C10. A `Transcode` constructed over an existing source directory with
no `.flac` files never succeeds: either an earlier check raises, or the
global-resample computation reads the first element of the empty track
list and raises; with the earlier checks passing the failure is exactly
that index error. -/
theorem init_no_flac_raises (outputs_exist flac16_requested : Bool)
    (files : List String) (getTrack : String → Except InitError Resample)
    (checkLogs : Except InitError Nat) (addFiles : Except InitError Unit)
    (hflac : ∀ f ∈ files, strLower (pathSuffix f) ≠ ".flac") :
    (∃ e, Transcode.init true outputs_exist flac16_requested files getTrack
        checkLogs addFiles = .error e) ∧
    (outputs_exist = false → (∃ n, checkLogs = .ok n) →
      Transcode.init true outputs_exist flac16_requested files getTrack
        checkLogs addFiles = .error .indexErr) := by
  have htracks : _iter_tracks files = [] := by
    rw [_iter_tracks, _find_by_extension, List.filter_eq_nil_iff]
    intro f hf
    have hne := hflac f hf
    simp [_get_extension, hne]
  have hcore : ∀ (hne : outputs_exist = false) (n : Nat)
      (hl : checkLogs = .ok n),
      Transcode.init true outputs_exist flac16_requested files getTrack
        checkLogs addFiles = .error .indexErr := by
    intro hne n hl
    rw [Transcode.init, if_neg (by simp [hne]), if_neg (by simp)]
    rw [hl, htracks]
    rfl
  constructor
  · cases houte : outputs_exist with
    | true =>
      refine ⟨InitError.transcodeExc "Cannot transcode into existing folders", ?_⟩
      rw [Transcode.init, if_pos rfl]
    | false =>
      cases hlog : checkLogs with
      | error e =>
        refine ⟨e, ?_⟩
        rw [Transcode.init, if_neg (by simp), if_neg (by simp), htracks]
        rfl
      | ok n =>
        have h2 := hcore houte n hlog
        rw [houte, hlog] at h2
        exact ⟨InitError.indexErr, h2⟩
  · rintro hne ⟨n, hl⟩
    exact hcore hne n hl

/-- C6. Eligibility priority order: each rejection reason fires exactly
when its condition holds and every earlier condition fails, the
conditions being checked in the fixed order unknown-year,
lossy-master-approved, not-lossless, reported-or-trumpable,
disallowed-media, bad-log-score, too-recent; in particular a candidate
that is both an unknown-year release and of disallowed media is rejected
with the unknown-year reason. -/
theorem eligibility_priority (am : List String) (cc : Option Int)
    (t : TorrentInfo) :
    (eligibility am cc t = .bad .unknownYear ↔ t.remasterYear = some 0) ∧
    (eligibility am cc t = .bad .lossyMaster ↔
      t.remasterYear ≠ some 0 ∧ (t.lossyMasterApproved ∨ t.lossyWebApproved)) ∧
    (eligibility am cc t = .bad .notLossless ↔
      t.remasterYear ≠ some 0 ∧ ¬ t.lossyMasterApproved ∧ ¬ t.lossyWebApproved ∧
      ¬ t.lossless) ∧
    (eligibility am cc t = .bad .reportedOrTrumpable ↔
      t.remasterYear ≠ some 0 ∧ ¬ t.lossyMasterApproved ∧ ¬ t.lossyWebApproved ∧
      t.lossless ∧ (t.reported ∨ t.trumpable)) ∧
    (eligibility am cc t = .bad .disallowedMedia ↔
      t.remasterYear ≠ some 0 ∧ ¬ t.lossyMasterApproved ∧ ¬ t.lossyWebApproved ∧
      t.lossless ∧ ¬ t.reported ∧ ¬ t.trumpable ∧
      ¬ am.contains (strLower t.media)) ∧
    (eligibility am cc t = .bad .badLog ↔
      t.remasterYear ≠ some 0 ∧ ¬ t.lossyMasterApproved ∧ ¬ t.lossyWebApproved ∧
      t.lossless ∧ ¬ t.reported ∧ ¬ t.trumpable ∧
      am.contains (strLower t.media) ∧ t.hasLog ∧ t.logScore < 100) ∧
    (eligibility am cc t = .retryLater ↔
      t.remasterYear ≠ some 0 ∧ ¬ t.lossyMasterApproved ∧ ¬ t.lossyWebApproved ∧
      t.lossless ∧ ¬ t.reported ∧ ¬ t.trumpable ∧
      am.contains (strLower t.media) ∧ ¬ (t.hasLog ∧ t.logScore < 100) ∧
      ∃ cutoff, cc = some cutoff ∧ cutoff ≤ t.time) ∧
    (t.remasterYear = some 0 → ¬ am.contains (strLower t.media) →
      eligibility am cc t = .bad .unknownYear) := by
  cases cc with
  | none =>
    simp only [eligibility]
    split_ifs <;> simp_all <;> aesop
  | some c =>
    simp only [eligibility]
    split_ifs <;> simp_all <;> aesop

/-- C6 witness: a candidate with remaster year 0 and a disallowed medium
is rejected for the unknown-year reason. -/
theorem eligibility_priority_witness :
    eligibility ["cd"] none
      ⟨some 0, false, false, true, false, false, "vinyl", false, 100, 0⟩ =
      .bad .unknownYear := by
  have h := eligibility_priority ["cd"] none
    ⟨some 0, false, false, true, false, false, "vinyl", false, 100, 0⟩
  exact h.2.2.2.2.2.2.2 rfl (by decide)

/-- C7 counterexample: an interrupt raised while executing the only item
of the batch is swallowed by the execution/publication loop, which ends
normally and records a retryable ledger entry for the item instead of
re-raising the interrupt. -/
theorem batch_exec_interrupt_counterexample :
    execLoop [] [⟨1, 2, some .interrupt, none, true⟩] =
      [(2, ⟨1, some "Transcode failed", true, none⟩)] ∧
    Cache.should_try (execLoop [] [⟨1, 2, some .interrupt, none, true⟩])
      2 none = true := by
  exact ⟨rfl, rfl⟩

/-- C7 amended: a process interrupt is re-raised immediately, bypassing
per-item isolation, by the candidate-preparation loop only; the
execution/publication loop instead catches every exception of an item —
interrupts included — records a ledger `error` entry whose retry flag is
the prompt's answer, and continues with the remaining items. -/
theorem batch_abort_propagation (os1 os2 : List (Except ExcClass (Option Nat)))
    (h1 : ∀ o ∈ os1, o ≠ .error .interrupt ∧ o ≠ .error .trackerExc) :
    prepLoop (os1 ++ .error .interrupt :: os2) = .error .interrupt ∧
    ∀ (c : Cache) (it : ExecItem) (items : List ExecItem) (e : ExcClass),
      it.execOutcome = some e →
      execLoop c (it :: items) =
        execLoop (Cache.errorOp c it.group_id it.torrent_id "Transcode failed"
          it.retryAnswer) items := by
  constructor
  · induction os1 with
    | nil => rfl
    | cons o os1' ih =>
      have hrest := ih fun o' ho' => h1 o' (by simp [ho'])
      have ho := h1 o (by simp)
      match o, ho with
      | .error .interrupt, ho => exact absurd rfl ho.1
      | .error .trackerExc, ho => exact absurd rfl ho.2
      | .error .otherExc, _ => exact hrest
      | .ok none, _ => exact hrest
      | .ok (some g), _ =>
        have hstep : prepLoop ((Except.ok (some g)) ::
            (os1' ++ Except.error ExcClass.interrupt :: os2)) =
            match prepLoop (os1' ++ Except.error ExcClass.interrupt :: os2) with
            | .error e => .error e
            | .ok gs => .ok (g :: gs) := rfl
        rw [List.cons_append, hstep, hrest]
  · intro c it items e he
    rw [execLoop, List.foldl_cons, execStep, he]
    rfl

/-- C7 amended witness: a three-outcome preparation run whose middle
outcome is the interrupt, and a concrete interrupted execution item. -/
theorem batch_abort_propagation_witness :
    prepLoop ([.ok none, .error .otherExc] ++ .error .interrupt ::
      [.ok (some 5)]) = .error .interrupt ∧
    ∀ (c : Cache) (it : ExecItem) (items : List ExecItem) (e : ExcClass),
      it.execOutcome = some e →
      execLoop c (it :: items) =
        execLoop (Cache.errorOp c it.group_id it.torrent_id "Transcode failed"
          it.retryAnswer) items :=
  batch_abort_propagation [.ok none, .error .otherExc] [.ok (some 5)]
    (by decide)

theorem try_verify_ok_true {V : Type} (vlt : V → V → Bool) (min_ver : V)
    (res : Except LogError (List Char × V × Option (List Char) × List Char))
    (h : try_verify vlt min_ver res = .ok true) :
    ∃ t v s, res = .ok (t, v, some s, s) ∧ vlt v min_ver = false := by
  match res with
  | .error e => exact absurd h (by simp [try_verify])
  | .ok (t, v, none, expected) =>
    rw [try_verify] at h
    by_cases hv : vlt v min_ver = true
    · rw [if_pos hv] at h
      exact absurd h (by simp)
    · rw [if_neg hv] at h
      exact absurd h (by simp)
  | .ok (t, v, some s, expected) =>
    rw [try_verify] at h
    by_cases hv : vlt v min_ver = true
    · rw [if_pos hv] at h
      exact absurd h (by simp)
    · rw [if_neg hv] at h
      by_cases hs : s ≠ expected
      · rw [if_pos hs] at h
        exact absurd h (by simp)
      · rw [if_neg hs] at h
        have hse : s = expected := not_not.mp hs
        subst hse
        refine ⟨t, v, s, rfl, ?_⟩
        simpa using hv

set_option maxRecDepth 4000 in
/-- C9 counterexample: on the five-byte file `hello` — odd length, so
not UTF-16, and holding no XLD version line — `check_log` raises
`WrongFormatException` instead of returning a boolean. -/
theorem check_log_raises_counterexample :
    helloBytes = [104, 101, 108, 108, 111] ∧
    check_log zeroCipher helloBytes =
      .error (.wrongFormat "No XLD version present") := by
  exact ⟨rfl, rfl⟩

theorem try_verify_no_sig {V : Type} (vlt : V → V → Bool) (min_ver : V)
    (t : List Char) (v : V) (e : List Char) (hv : vlt v min_ver = false) :
    try_verify vlt min_ver (.ok (t, v, none, e)) = .ok false := by
  rw [try_verify, if_neg (by simp [hv])]

theorem try_verify_low_version {V : Type} (vlt : V → V → Bool) (min_ver : V)
    (t : List Char) (v : V) (sig : Option (List Char)) (e : List Char)
    (hv : vlt v min_ver = true) :
    try_verify vlt min_ver (.ok (t, v, sig, e)) =
      .error (.logExc "Invalid minimum version") := by
  cases sig with
  | none => rw [try_verify, if_pos hv]
  | some s => rw [try_verify, if_pos hv]

theorem try_verify_mismatch {V : Type} (vlt : V → V → Bool) (min_ver : V)
    (t : List Char) (v : V) (s e : List Char)
    (hv : vlt v min_ver = false) (hne : s ≠ e) :
    try_verify vlt min_ver (.ok (t, v, some s, e)) =
      .error (.logExc "Invalid log checksum") := by
  rw [try_verify, if_neg (by simp [hv]), if_pos hne]

theorem check_log_inner (cipher : List Nat → List Nat) (data : List Nat)
    (hie : is_extract_log data ≠ .ok false) :
    check_log cipher data =
      match try_verify eacVersionLt EAC_MIN_VERSION (eac_verify cipher data) with
      | .error (.wrongFormat _) =>
        try_verify strLtChars XLD_MIN_VERSION (xld_verify data)
      | r => r := by
  rw [check_log]
  cases hie2 : is_extract_log data with
  | ok b =>
    cases b with
    | false => exact absurd hie2 hie
    | true => rfl
  | error e => rfl

set_option maxRecDepth 4000 in
/-- C9 amended. The log check returns `True` only when an embedded
signature verifies: equal to the computed checksum, in a log of
sufficient version, in the EAC branch or in the XLD fallback. It returns
`False` for AUDIOCHECKER logs and for recognised logs of sufficient
version that lack a signature. It is not total: a log recognised by
neither format raises `WrongFormatException` (the concrete five-byte
file `hello` below), and a non-AUDIOCHECKER log recognised with a
too-low version or a mismatched checksum raises `LogException`, rather
than counting as unverified. -/
theorem check_log_characterisation (cipher : List Nat → List Nat)
    (data : List Nat) :
    (check_log cipher data = .ok true →
      (∃ t v s, eac_verify cipher data = .ok (t, v, some s, s) ∧
        eacVersionLt v EAC_MIN_VERSION = false) ∨
      (∃ t v s, xld_verify data = .ok (t, v, some s, s) ∧
        strLtChars v XLD_MIN_VERSION = false)) ∧
    (is_extract_log data = .ok false → check_log cipher data = .ok false) ∧
    (∀ t v e, eac_verify cipher data = .ok (t, v, none, e) →
      eacVersionLt v EAC_MIN_VERSION = false →
      check_log cipher data = .ok false) ∧
    (∀ m t v e,
      try_verify eacVersionLt EAC_MIN_VERSION (eac_verify cipher data) =
        .error (.wrongFormat m) →
      xld_verify data = .ok (t, v, none, e) →
      strLtChars v XLD_MIN_VERSION = false →
      check_log cipher data = .ok false) ∧
    (is_extract_log data ≠ .ok false →
      (∀ t v sig e, eac_verify cipher data = .ok (t, v, sig, e) →
        eacVersionLt v EAC_MIN_VERSION = true →
        check_log cipher data = .error (.logExc "Invalid minimum version")) ∧
      (∀ m t v sig e,
        try_verify eacVersionLt EAC_MIN_VERSION (eac_verify cipher data) =
          .error (.wrongFormat m) →
        xld_verify data = .ok (t, v, sig, e) →
        strLtChars v XLD_MIN_VERSION = true →
        check_log cipher data = .error (.logExc "Invalid minimum version"))) ∧
    (is_extract_log data ≠ .ok false →
      (∀ t v s e, eac_verify cipher data = .ok (t, v, some s, e) →
        eacVersionLt v EAC_MIN_VERSION = false → s ≠ e →
        check_log cipher data = .error (.logExc "Invalid log checksum")) ∧
      (∀ m t v s e,
        try_verify eacVersionLt EAC_MIN_VERSION (eac_verify cipher data) =
          .error (.wrongFormat m) →
        xld_verify data = .ok (t, v, some s, e) →
        strLtChars v XLD_MIN_VERSION = false → s ≠ e →
        check_log cipher data = .error (.logExc "Invalid log checksum"))) ∧
    check_log zeroCipher helloBytes =
      .error (.wrongFormat "No XLD version present") := by
  refine ⟨?_, ?_, ?_, ?_, ?_, ?_, ?_⟩
  · intro h
    rw [check_log] at h
    split at h
    · exact absurd h (by simp)
    · split at h
      · exact Or.inr (try_verify_ok_true _ _ _ h)
      · exact Or.inl (try_verify_ok_true _ _ _ h)
  · intro h2
    rw [check_log, h2]
  · intro t v e heac hv
    by_cases hie : is_extract_log data = .ok false
    · rw [check_log, hie]
    · rw [check_log_inner cipher data hie, heac,
        try_verify_no_sig eacVersionLt EAC_MIN_VERSION t v e hv]
  · intro m t v e hEwf hxld hv
    by_cases hie : is_extract_log data = .ok false
    · rw [check_log, hie]
    · rw [check_log_inner cipher data hie, hEwf, hxld,
        try_verify_no_sig strLtChars XLD_MIN_VERSION t v e hv]
  · intro hie
    constructor
    · intro t v sig e heac hv
      rw [check_log_inner cipher data hie, heac,
        try_verify_low_version eacVersionLt EAC_MIN_VERSION t v sig e hv]
    · intro m t v sig e hEwf hxld hv
      rw [check_log_inner cipher data hie, hEwf, hxld,
        try_verify_low_version strLtChars XLD_MIN_VERSION t v sig e hv]
  · intro hie
    constructor
    · intro t v s e heac hv hne
      rw [check_log_inner cipher data hie, heac,
        try_verify_mismatch eacVersionLt EAC_MIN_VERSION t v s e hv hne]
    · intro m t v s e hEwf hxld hv hne
      rw [check_log_inner cipher data hie, hEwf, hxld,
        try_verify_mismatch strLtChars XLD_MIN_VERSION t v s e hv hne]
  · rfl

set_option maxRecDepth 8000 in
/-- C9 witness: the EAC log whose embedded 64-zero signature matches the
checksum computed under the all-zero cipher is accepted, so the
verified-signature disjunction holds for it. -/
theorem check_log_characterisation_witness :
    (∃ t v s, eac_verify zeroCipher eacWitnessData = .ok (t, v, some s, s) ∧
      eacVersionLt v EAC_MIN_VERSION = false) ∨
    (∃ t v s, xld_verify eacWitnessData = .ok (t, v, some s, s) ∧
      strLtChars v XLD_MIN_VERSION = false) :=
  (check_log_characterisation zeroCipher eacWitnessData).1 (by rfl)

/-- C10 witness: a listing with no FLAC files, succeeding log check, and
fresh outputs fails with the index error. -/
theorem init_no_flac_raises_witness :
    Transcode.init true false false ["01.mp3", "cover.jpg"]
      (fun _ => .ok .KEEP) (.ok 0) (.ok ()) = .error .indexErr := by
  have h := init_no_flac_raises false false ["01.mp3", "cover.jpg"]
    (fun _ => .ok .KEEP) (.ok 0) (.ok ()) (by decide)
  exact h.2 rfl ⟨0, rfl⟩

end Autott
